import Mathlib

/-!
Shallow embedding of the pin-tip detection pipeline
(`src/dodal/devices/oav/pin_image_recognition/__init__.py`, class
`PinTipDetection`) and of the sample-locating scan described by the spec
(the companion module `utils` with `MxSampleDetect`, `SampleLocation`,
`ScanDirections` and `ARRAY_PROCESSING_FUNCTIONS_MAP` is not among the
sources, so those parts are modelled from the spec and flagged as such).

Modelling conventions:
  - a video frame is a rectangular 2-D integer array, `List (List Int)`
    in row-major order;
  - a numpy `int32` coordinate is an `Int`; the only place 32-bit range
    matters is the `INVALID_POSITION` sentinel, whose coordinates the
    source takes from `np.iinfo(np.int32).min`, embedded literally;
  - the three soft output signals (`triggered_tip`, `triggered_top_edge`,
    `triggered_bottom_edge`) form the record `OutputState`; the setters
    returned by `soft_signal_r_and_setter` become record updates and a
    read of such a signal is a pure projection of the state;
  - a Python exception becomes an `Except` error value; the trigger
    loop's `try/except Exception` becomes a `match` on that value;
  - the `async for value in observe_value(self.array_data)` stream,
    raced against `asyncio.wait_for`'s timeout, is embedded as the
    finite list of observations delivered before the timeout fires:
    exhausting the list is exactly the `asyncio.TimeoutError` branch;
  - each observation is an arbitrary type `α` processed by a function
    `process : α → Except ε SampleLocation` standing for
    `_get_tip_and_edge_data`; instantiating `α` with
    `PipelineConfig × Frame` (below) wires in the live per-attempt read
    of the configuration signals.
-/

/-- Result record produced by sample location, as used by
`_set_triggered_values`: optional tip coordinates and the two per-column
edge traces (spec data model: `tip_x: int|absent`, `tip_y: int|absent`,
`edge_top`, `edge_bottom`). -/
structure SampleLocation where
  tip_x : Option Int
  tip_y : Option Int
  edge_top : List Int
  edge_bottom : List Int
  deriving DecidableEq

/-- State of the three published output signals of `PinTipDetection`:
`triggered_tip` (a pair, from `np.array([tip_x, tip_y])`),
`triggered_top_edge` and `triggered_bottom_edge`. -/
structure OutputState where
  triggered_tip : Int × Int
  triggered_top_edge : List Int
  triggered_bottom_edge : List Int
  deriving DecidableEq

/-- Minimum representable 32-bit signed integer, `np.iinfo(np.int32).min`. -/
def INT32_MIN : Int := -2147483648

/-- The sentinel `PinTipDetection.INVALID_POSITION =
np.array([np.iinfo(np.int32).min, np.iinfo(np.int32).min])`. -/
def INVALID_POSITION : Int × Int := (INT32_MIN, INT32_MIN)

/-- Embeds `PinTipDetection._set_triggered_values`: raises
`InvalidPinException` (the `Except.error` branch) when either tip
coordinate is absent, before any setter has run; otherwise sets the tip
to the pair `(tip_x, tip_y)` and then the two edge signals. -/
def set_triggered_values (results : SampleLocation) (s : OutputState) :
    Except Unit OutputState :=
  match results.tip_x, results.tip_y with
  | some x, some y =>
      Except.ok { s with
        triggered_tip := (x, y)
        triggered_top_edge := results.edge_top
        triggered_bottom_edge := results.edge_bottom }
  | _, _ => Except.error ()

/-- Does one frame-processing outcome carry a present tip (both
coordinates present)?  This is the condition under which the loop body
of `_set_triggered_tip` reaches its `return`. -/
def has_present_tip {ε : Type} (r : Except ε SampleLocation) : Bool :=
  match r with
  | Except.ok loc => loc.tip_x.isSome && loc.tip_y.isSome
  | Except.error _ => false

/-- One iteration of the loop body of `_set_triggered_tip` on the
observation `a`: `location = await self._get_tip_and_edge_data(value)`
then `self._set_triggered_values(location)`, with the surrounding
`try/except Exception` catching any error from either call.
`some s_new` means the body reached its `return` (success, outputs
updated); `none` means the exception was logged and the loop retries
with the next observation, the outputs untouched. -/
def attempt_result {α ε : Type} (process : α → Except ε SampleLocation)
    (a : α) (s : OutputState) : Option OutputState :=
  match process a with
  | Except.ok loc =>
      match set_triggered_values loc s with
      | Except.ok s_new => some s_new
      | Except.error _ => none
  | Except.error _ => none

/-- Output state after one loop iteration on observation `a`: the updated
state on success, the unchanged state on a caught failure. -/
def attempt {α ε : Type} (process : α → Except ε SampleLocation)
    (a : α) (s : OutputState) : OutputState :=
  (attempt_result process a s).getD s

/-- Embeds the inner coroutine `_set_triggered_tip` of
`PinTipDetection.trigger`: iterate over the observations delivered
before the timeout; on a success return the updated output state,
on a caught failure continue with the next observation.  Returning
`none` means the coroutine was still looping when the observation
stream ran out, i.e. `asyncio.wait_for` fires `TimeoutError`. -/
def set_triggered_tip {α ε : Type} (process : α → Except ε SampleLocation) :
    List α → OutputState → Option OutputState
  | [], _ => none
  | a :: rest, s =>
      match attempt_result process a s with
      | some s_new => some s_new
      | none => set_triggered_tip process rest s

/-- Embeds `PinTipDetection.trigger`: run `_set_triggered_tip` under
`asyncio.wait_for`; on `TimeoutError` log and overwrite the outputs with
the `INVALID_POSITION` sentinel and two empty edge arrays.  The function
is total: the timeout is caught, so the trigger cycle never raises. -/
def trigger {α ε : Type} (process : α → Except ε SampleLocation)
    (observations : List α) (s : OutputState) : OutputState :=
  match set_triggered_tip process observations s with
  | some s_new => s_new
  | none =>
      { triggered_tip := INVALID_POSITION
        triggered_top_edge := []
        triggered_bottom_edge := [] }

/-- Reading the soft read-only signal `triggered_tip`: a pure projection
of the device state, returning the held value and the state, which it
leaves unchanged. -/
def read_triggered_tip (s : OutputState) : (Int × Int) × OutputState :=
  (s.triggered_tip, s)

/-- Video frame: a 2-D integer intensity array, rows of columns. -/
def Frame : Type := List (List Int)

/-- Scan directions of the sample locator (the enum `ScanDirections`
imported from the absent `utils` module): FORWARD scans columns in
increasing index order, REVERSE in decreasing order. -/
inductive ScanDirections where
  | forward : ScanDirections
  | reverse : ScanDirections
  deriving DecidableEq

/-- Modelled from the spec: the first "on" row of one column of the
binary silhouette array (spec 4.2 step 2: "for each column, find the
first and last on row"); the locator itself is in the absent `utils`
module. -/
def first_on_row (col : List Bool) : Option Nat :=
  col.findIdx? (fun b => b)

/-- Modelled from the spec: the last "on" row of one column of the
binary silhouette array (spec 4.2 step 2). -/
def last_on_row (col : List Bool) : Option Nat :=
  (col.reverse.findIdx? (fun b => b)).map (fun i => col.length - 1 - i)

/-- Modelled from the spec: a column qualifies as the tip column when its
vertical extent (bottom row minus top row) meets or exceeds
`min_tip_height` (spec 4.2 step 3); a column with no "on" rows has no
extent and never qualifies. -/
def column_qualifies (min_tip_height : Int) (col : List Bool) : Bool :=
  match first_on_row col, last_on_row col with
  | some t, some b => min_tip_height ≤ (b : Int) - (t : Int)
  | _, _ => false

/-- Modelled from the spec: the order in which the locator examines the
`n` column indices (spec 4.2 step 2: FORWARD = left-to-right, REVERSE =
right-to-left). -/
def scan_order (dir : ScanDirections) (n : Nat) : List Nat :=
  match dir with
  | ScanDirections.forward => List.range n
  | ScanDirections.reverse => (List.range n).reverse

/-- Modelled from the spec: examine column indices in the given order and
return the first one whose column qualifies (spec 4.2 step 3: "the tip
column is the first column (in scan order) whose vertical extent meets
or exceeds min_tip_height"). -/
def scan_columns (cols : List (List Bool)) (min_tip_height : Int) :
    List Nat → Option Nat
  | [] => none
  | i :: rest =>
      if column_qualifies min_tip_height (cols.getD i []) then some i
      else scan_columns cols min_tip_height rest

/-- Modelled from the spec: the per-column top-edge trace computed for
all columns; a column with no "on" rows contributes the placeholder
`-1`, a choice the spec leaves open (it only requires the traces to be
computed for all columns). -/
def edge_trace_top (cols : List (List Bool)) : List Int :=
  cols.map (fun c =>
    match first_on_row c with
    | some t => (t : Int)
    | none => -1)

/-- Modelled from the spec: the per-column bottom-edge trace computed for
all columns, with the same `-1` placeholder for empty columns. -/
def edge_trace_bottom (cols : List (List Bool)) : List Int :=
  cols.map (fun c =>
    match last_on_row c with
    | some b => (b : Int)
    | none => -1)

/-- Modelled from the spec: the column scan of `MxSampleDetect` (the
`_locate_sample` step of `processArray` in the absent `utils` module).
`cols` is the binary silhouette after edge detection and morphological
close, presented column-major (one list of row values per column, top to
bottom).  It scans the columns in the order given by the scan direction;
the first qualifying column yields the tip, with `tip_x` the column
index and `tip_y` the midpoint of that column's extent (spec 4.2 step 3
allows "midpoint or leading edge"); when no column qualifies
(spec 4.2 step 4) the tip is absent but the edge traces of all columns
are still returned. -/
def locate_sample (cols : List (List Bool)) (dir : ScanDirections)
    (min_tip_height : Int) : SampleLocation :=
  match scan_columns cols min_tip_height (scan_order dir cols.length) with
  | some i =>
      let c := cols.getD i []
      let t : Int := ((first_on_row c).getD 0 : Nat)
      let b : Int := ((last_on_row c).getD 0 : Nat)
      { tip_x := some (i : Int)
        tip_y := some ((t + b) / 2)
        edge_top := edge_trace_top cols
        edge_bottom := edge_trace_bottom cols }
  | none =>
      { tip_x := none
        tip_y := none
        edge_top := edge_trace_top cols
        edge_bottom := edge_trace_bottom cols }

/-- Processing error of one frame attempt: `InvalidInputError` on a
malformed frame (spec 4.2: the locator "raises a distinct error only for
malformed input (wrong array rank/shape)"). -/
inductive ProcessError where
  | invalidInput : ProcessError
  deriving DecidableEq

/-- Modelled from the spec: a frame is well-formed when it is a genuine
2-D array, i.e. all its rows have equal length (a ragged list is the
embedding of a wrong-shape input; wrong rank is excluded by typing). -/
def wellFormed (arr : Frame) : Bool :=
  arr.all (fun r => r.length = (arr.headD []).length)

/-- Parameter record of `MxSampleDetect`, as constructed by
`PinTipDetection._get_tip_and_edge_data` (source lines 124-132): the
preprocessing function and the six scalar detection parameters. -/
structure MxSampleDetect where
  preprocess : Frame → Frame
  canny_lower : Int
  canny_upper : Int
  close_ksize : Int
  close_iterations : Int
  scan_direction : ScanDirections
  min_tip_height : Int

/-- Edge-detection stage: Canny with the two thresholds followed by a
morphological close, producing the column-major binary silhouette.  Its
numerics are out of scope for the spec (section 1 non-goal), so it is an
abstract parameter of the embedding, consuming the two thresholds, the
close kernel size and iteration count, and the preprocessed frame. -/
def EdgeDetector : Type :=
  Int → Int → Int → Int → Frame → List (List Bool)

/-- Modelled from the spec: `MxSampleDetect.processArray` of the absent
`utils` module — validate the frame shape (raising `InvalidInputError`
otherwise), apply the preprocessing function, the edge-detection and
close stage, then the column scan. -/
def processArray (ed : EdgeDetector) (d : MxSampleDetect) (arr : Frame) :
    Except ProcessError SampleLocation :=
  if wellFormed arr then
    Except.ok (locate_sample
      (ed d.canny_lower d.canny_upper d.close_ksize d.close_iterations
        (d.preprocess arr))
      d.scan_direction d.min_tip_height)
  else Except.error ProcessError.invalidInput

/-- Per-attempt values of the mutable configuration signals of
`PinTipDetection`, one field per soft signal read by
`_get_tip_and_edge_data`. -/
structure PipelineConfig where
  preprocess_operation : Int
  preprocess_ksize : Int
  preprocess_iterations : Int
  canny_upper_threshold : Int
  canny_lower_threshold : Int
  close_ksize : Int
  close_iterations : Int
  scan_direction : Int
  min_tip_height : Int
  deriving DecidableEq

/-- Registry type of `ARRAY_PROCESSING_FUNCTIONS_MAP` (defined in the
absent `utils` module, so its contents stay abstract): a partial map
from integer operation code to a factory taking `iter` and `ksize` to a
frame transform. -/
def PreprocessRegistry : Type :=
  Int → Option (Int → Int → Frame → Frame)

/-- The `identity()` preprocessing fallback imported from `utils`: the
identity frame transform. -/
def identity : Frame → Frame := fun arr => arr

/-- Embeds the registry lookup of `_get_tip_and_edge_data` (source lines
110-116): `ARRAY_PROCESSING_FUNCTIONS_MAP[key](iter=..., ksize=...)`
with `except KeyError` falling back to `identity()` after logging.  The
boolean records whether the fallback warning was logged. -/
def choose_preprocess (registry : PreprocessRegistry)
    (key it ksize : Int) : (Frame → Frame) × Bool :=
  match registry key with
  | some factory => (factory it ksize, false)
  | none => (identity, true)

/-- Embeds the scan-direction decode of `_get_tip_and_edge_data` (source
lines 118-122): `ScanDirections.FORWARD if value == 0 else
ScanDirections.REVERSE`. -/
def interpret_direction (v : Int) : ScanDirections :=
  if v == 0 then ScanDirections.forward else ScanDirections.reverse

/-- Embeds `PinTipDetection._get_tip_and_edge_data`: read the current
configuration signal values (the `cfg` record), resolve the
preprocessing function from the registry with identity fallback, decode
the scan direction, build the `MxSampleDetect` record and run
`processArray` on the frame.  Alongside the location it returns the
flag recording whether the unknown-code warning was logged. -/
def getTipAndEdgeData (registry : PreprocessRegistry) (ed : EdgeDetector)
    (cfg : PipelineConfig) (array_data : Frame) :
    Except ProcessError (SampleLocation × Bool) :=
  let pre := choose_preprocess registry cfg.preprocess_operation
    cfg.preprocess_iterations cfg.preprocess_ksize
  let d : MxSampleDetect :=
    { preprocess := pre.1
      canny_lower := cfg.canny_lower_threshold
      canny_upper := cfg.canny_upper_threshold
      close_ksize := cfg.close_ksize
      close_iterations := cfg.close_iterations
      scan_direction := interpret_direction cfg.scan_direction
      min_tip_height := cfg.min_tip_height }
  (processArray ed d array_data).map (fun loc => (loc, pre.2))

/-- One observation of the camera stream together with the values the
configuration signals hold at the moment that frame is processed: the
loop instantiated at this observation type re-reads the configuration on
every attempt, which is how the per-frame `get_value()` calls of
`_get_tip_and_edge_data` are embedded. -/
def process_event (registry : PreprocessRegistry) (ed : EdgeDetector)
    (e : PipelineConfig × Frame) : Except ProcessError SampleLocation :=
  (getTipAndEdgeData registry ed e.1 e.2).map Prod.fst

/-! ### Lemmas about single attempts and the retry loop -/

/-- A processing outcome without a present tip makes the loop body fail:
either the processing error or the `InvalidPinException` raised by
`set_triggered_values` is caught, and no setter has run. -/
lemma attempt_result_eq_none_of_no_tip {α ε : Type}
    (process : α → Except ε SampleLocation) (a : α) (s : OutputState)
    (h : has_present_tip (process a) = false) :
    attempt_result process a s = none := by
  unfold attempt_result
  cases hp : process a with
  | error e => rfl
  | ok loc =>
      simp only [has_present_tip, hp] at h
      unfold set_triggered_values
      cases hx : loc.tip_x with
      | none => simp [hx]
      | some x =>
          cases hy : loc.tip_y with
          | none => simp [hx, hy]
          | some y => simp [hx, hy] at h

/-- A processing outcome with a present tip makes the loop body succeed,
publishing the tip pair together with both edge traces. -/
lemma attempt_result_eq_some_of_tip {α ε : Type}
    (process : α → Except ε SampleLocation) (a : α) (s : OutputState)
    {loc : SampleLocation} {x y : Int}
    (hp : process a = Except.ok loc)
    (hx : loc.tip_x = some x) (hy : loc.tip_y = some y) :
    attempt_result process a s = some
      { triggered_tip := (x, y)
        triggered_top_edge := loc.edge_top
        triggered_bottom_edge := loc.edge_bottom } := by
  simp [attempt_result, set_triggered_values, hp, hx, hy]

/-- When every observation in the list lacks a present tip, the loop
never returns: the stream is exhausted, i.e. the timeout fires. -/
lemma set_triggered_tip_eq_none_of_all_fail {α ε : Type}
    (process : α → Except ε SampleLocation) :
    ∀ (observations : List α) (s : OutputState),
      (∀ a ∈ observations, has_present_tip (process a) = false) →
      set_triggered_tip process observations s = none := by
  intro observations
  induction observations with
  | nil => intro s _; rfl
  | cons a rest ih =>
      intro s hall
      unfold set_triggered_tip
      rw [attempt_result_eq_none_of_no_tip process a s
        (hall a (List.mem_cons_self a rest))]
      exact ih s (fun b hb => hall b (List.mem_cons_of_mem a hb))

/-- When every observation before `a` lacks a present tip and processing
`a` yields one, the loop returns the outputs published from `a`'s
location, whatever observations would have followed. -/
lemma set_triggered_tip_first_success {α ε : Type}
    (process : α → Except ε SampleLocation) {loc : SampleLocation}
    {x y : Int} (a : α)
    (hp : process a = Except.ok loc)
    (hx : loc.tip_x = some x) (hy : loc.tip_y = some y) :
    ∀ (pre rest : List α) (s : OutputState),
      (∀ b ∈ pre, has_present_tip (process b) = false) →
      set_triggered_tip process (pre ++ a :: rest) s = some
        { triggered_tip := (x, y)
          triggered_top_edge := loc.edge_top
          triggered_bottom_edge := loc.edge_bottom } := by
  intro pre
  induction pre with
  | nil =>
      intro rest s _
      rw [List.nil_append]
      simp only [set_triggered_tip]
      rw [attempt_result_eq_some_of_tip process a s hp hx hy]
  | cons b pre_rest ih =>
      intro rest s hall
      show set_triggered_tip process (b :: (pre_rest ++ a :: rest)) s = _
      simp only [set_triggered_tip]
      rw [attempt_result_eq_none_of_no_tip process b s
        (hall b (List.mem_cons_self b pre_rest))]
      exact ih rest s (fun c hc => hall c (List.mem_cons_of_mem b hc))

/-! ### Claim theorems about the trigger cycle -/

/-- C1.  When no processed observation of the cycle yields a present tip
before the timeout, `trigger` completes (it is a total function: the
`TimeoutError` is caught) and publishes the `INVALID_POSITION` sentinel
pair — both coordinates the minimum 32-bit signed integer — together
with two empty edge sequences. -/
theorem trigger_timeout_publishes_sentinel {α ε : Type}
    (process : α → Except ε SampleLocation)
    (observations : List α) (s : OutputState)
    (h : ∀ a ∈ observations, has_present_tip (process a) = false) :
    trigger process observations s =
      { triggered_tip := (-2147483648, -2147483648)
        triggered_top_edge := []
        triggered_bottom_edge := [] } := by
  unfold trigger
  rw [set_triggered_tip_eq_none_of_all_fail process observations s h]
  rfl

/-- Witness for C1: a cycle whose two observations both raise is
published as the sentinel with empty edges. -/
theorem trigger_timeout_publishes_sentinel_witness :
    trigger (fun _ : Unit => (Except.error () : Except Unit SampleLocation))
        [(), ()] { triggered_tip := (3, 4), triggered_top_edge := [5],
                   triggered_bottom_edge := [6] } =
      { triggered_tip := (-2147483648, -2147483648)
        triggered_top_edge := []
        triggered_bottom_edge := [] } :=
  trigger_timeout_publishes_sentinel _ _ _ (by decide)

/-- C2.  The first observation whose processing yields a location with a
present tip ends the cycle: `trigger` publishes exactly the pair
`(tip_x, tip_y)` with the returned top and bottom edge traces, and the
result is the same whatever observations would have followed — the loop
returns without observing them. -/
theorem trigger_publishes_first_present_tip {α ε : Type}
    (process : α → Except ε SampleLocation) {loc : SampleLocation}
    {x y : Int} (a : α) (pre rest : List α) (s : OutputState)
    (hpre : ∀ b ∈ pre, has_present_tip (process b) = false)
    (hp : process a = Except.ok loc)
    (hx : loc.tip_x = some x) (hy : loc.tip_y = some y) :
    trigger process (pre ++ a :: rest) s =
      { triggered_tip := (x, y)
        triggered_top_edge := loc.edge_top
        triggered_bottom_edge := loc.edge_bottom } ∧
    trigger process (pre ++ a :: rest) s = trigger process (pre ++ [a]) s := by
  have h1 := set_triggered_tip_first_success process a hp hx hy pre rest s hpre
  have h2 := set_triggered_tip_first_success process a hp hx hy pre [] s hpre
  unfold trigger
  rw [h1, h2]
  exact ⟨rfl, rfl⟩

/-- Witness for C2: with one failing observation before the qualifying
one and one after, the published outputs come from the qualifying
observation's location. -/
theorem trigger_publishes_first_present_tip_witness :
    trigger
        (fun b : Bool =>
          if b then
            Except.ok { tip_x := some 3, tip_y := some 4,
                        edge_top := [5, 6], edge_bottom := [7, 8] }
          else (Except.error () : Except Unit SampleLocation))
        ([false] ++ true :: [false])
        { triggered_tip := (0, 0), triggered_top_edge := [],
          triggered_bottom_edge := [] } =
      { triggered_tip := (3, 4)
        triggered_top_edge := [5, 6]
        triggered_bottom_edge := [7, 8] } :=
  (trigger_publishes_first_present_tip _ true [false] [false] _
    (by decide) rfl rfl rfl).1

/-- C4.  Any failure while processing one observation — a processing
exception (e.g. `InvalidInputError` on a malformed frame) or the
`InvalidPinException` of the absent-tip case — is caught by the loop
body: the attempt yields no result instead of propagating, the outputs
are left untouched, and the cycle continues exactly as it would on the
remaining observations; one bad frame never aborts the trigger cycle. -/
theorem failed_attempt_is_caught_and_cycle_continues {α ε : Type}
    (process : α → Except ε SampleLocation) (a : α) (rest : List α)
    (s : OutputState)
    (h : has_present_tip (process a) = false) :
    attempt_result process a s = none ∧
    attempt process a s = s ∧
    set_triggered_tip process (a :: rest) s =
      set_triggered_tip process rest s ∧
    trigger process (a :: rest) s = trigger process rest s := by
  have hn := attempt_result_eq_none_of_no_tip process a s h
  have hloop : set_triggered_tip process (a :: rest) s =
      set_triggered_tip process rest s := by
    simp only [set_triggered_tip]
    rw [hn]
  refine ⟨hn, ?_, hloop, ?_⟩
  · rw [attempt, hn]; rfl
  · unfold trigger; rw [hloop]

/-- Witness for C4: an observation raising an error is skipped and the
cycle behaves as if it started at the next observation. -/
theorem failed_attempt_is_caught_and_cycle_continues_witness :
    attempt_result
        (fun b : Bool =>
          if b then
            Except.ok { tip_x := some 1, tip_y := some 2,
                        edge_top := [3], edge_bottom := [4] }
          else (Except.error () : Except Unit SampleLocation))
        false
        { triggered_tip := (9, 9), triggered_top_edge := [],
          triggered_bottom_edge := [] } = none ∧
    attempt
        (fun b : Bool =>
          if b then
            Except.ok { tip_x := some 1, tip_y := some 2,
                        edge_top := [3], edge_bottom := [4] }
          else (Except.error () : Except Unit SampleLocation))
        false
        { triggered_tip := (9, 9), triggered_top_edge := [],
          triggered_bottom_edge := [] } =
      { triggered_tip := (9, 9), triggered_top_edge := [],
        triggered_bottom_edge := [] } :=
  ⟨(failed_attempt_is_caught_and_cycle_continues _ false [true] _
      (by decide)).1,
   (failed_attempt_is_caught_and_cycle_continues _ false [true] _
      (by decide)).2.1⟩

/-- C5.  The three output signals are only ever overwritten as a group:
one loop attempt either leaves the state exactly as it was (any failure,
including the absent-tip case) or replaces all three outputs from the
one successful location; and the timeout branch likewise writes the
sentinel tip and both empty edge traces together.  No partially updated
triple is ever produced. -/
theorem outputs_overwritten_only_as_a_group {α ε : Type}
    (process : α → Except ε SampleLocation) (a : α)
    (observations : List α) (s : OutputState) :
    (attempt process a s = s ∨
      ∃ loc x y, process a = Except.ok loc ∧
        loc.tip_x = some x ∧ loc.tip_y = some y ∧
        attempt process a s =
          { triggered_tip := (x, y)
            triggered_top_edge := loc.edge_top
            triggered_bottom_edge := loc.edge_bottom }) ∧
    (set_triggered_tip process observations s = none →
      trigger process observations s =
        { triggered_tip := INVALID_POSITION
          triggered_top_edge := []
          triggered_bottom_edge := [] }) := by
  constructor
  · by_cases h : has_present_tip (process a) = true
    · right
      cases hp : process a with
      | error e => simp [has_present_tip, hp] at h
      | ok loc =>
          simp only [has_present_tip, hp, Bool.and_eq_true,
            Option.isSome_iff_exists] at h
          obtain ⟨⟨x, hx⟩, ⟨y, hy⟩⟩ := h
          refine ⟨loc, x, y, rfl, hx, hy, ?_⟩
          rw [attempt, attempt_result_eq_some_of_tip process a s hp hx hy]
          rfl
    · left
      rw [attempt, attempt_result_eq_none_of_no_tip process a s
        (Bool.not_eq_true _ ▸ h)]
      rfl
  · intro hnone
    unfold trigger
    rw [hnone]

/-- Witness for C5: a failing attempt leaves the triple untouched, and a
timed-out cycle publishes the full sentinel triple. -/
theorem outputs_overwritten_only_as_a_group_witness :
    (attempt (fun _ : Unit => (Except.error () : Except Unit SampleLocation))
        () { triggered_tip := (1, 2), triggered_top_edge := [3],
             triggered_bottom_edge := [4] } =
        { triggered_tip := (1, 2), triggered_top_edge := [3],
          triggered_bottom_edge := [4] } ∨
      ∃ loc x y,
        (fun _ : Unit => (Except.error () : Except Unit SampleLocation)) () =
          Except.ok loc ∧
        loc.tip_x = some x ∧ loc.tip_y = some y ∧
        attempt (fun _ : Unit => (Except.error () : Except Unit SampleLocation))
          () { triggered_tip := (1, 2), triggered_top_edge := [3],
               triggered_bottom_edge := [4] } =
          { triggered_tip := (x, y)
            triggered_top_edge := loc.edge_top
            triggered_bottom_edge := loc.edge_bottom }) ∧
    trigger (fun _ : Unit => (Except.error () : Except Unit SampleLocation))
        [()] { triggered_tip := (1, 2), triggered_top_edge := [3],
               triggered_bottom_edge := [4] } =
      { triggered_tip := INVALID_POSITION
        triggered_top_edge := []
        triggered_bottom_edge := [] } :=
  ⟨(outputs_overwritten_only_as_a_group _ () [()] _).1,
   (outputs_overwritten_only_as_a_group _ () [()] _).2 (by decide)⟩

/-- C9.  Reading `triggered_tip` does not mutate the device: the read
returns the held value and leaves the state unchanged, so two
consecutive reads with no intervening trigger return the same value. -/
theorem read_triggered_tip_is_pure (s : OutputState) :
    (read_triggered_tip s).2 = s ∧
    (read_triggered_tip ((read_triggered_tip s).2)).1 =
      (read_triggered_tip s).1 :=
  ⟨rfl, rfl⟩

/-- C6.  An operation code that is not a key of the registry makes the
lookup fall back to the identity transform with the warning flag
recorded, and the frame-processing attempt proceeds exactly as it would
with identity preprocessing — the unknown code neither raises nor
aborts the attempt. -/
theorem unknown_preprocess_code_uses_identity
    (registry : PreprocessRegistry) (ed : EdgeDetector)
    (cfg : PipelineConfig) (f : Frame)
    (h : registry cfg.preprocess_operation = none) :
    choose_preprocess registry cfg.preprocess_operation
        cfg.preprocess_iterations cfg.preprocess_ksize = (identity, true) ∧
    getTipAndEdgeData registry ed cfg f =
      (processArray ed
          { preprocess := identity
            canny_lower := cfg.canny_lower_threshold
            canny_upper := cfg.canny_upper_threshold
            close_ksize := cfg.close_ksize
            close_iterations := cfg.close_iterations
            scan_direction := interpret_direction cfg.scan_direction
            min_tip_height := cfg.min_tip_height } f).map
        (fun loc => (loc, true)) := by
  have hc : choose_preprocess registry cfg.preprocess_operation
      cfg.preprocess_iterations cfg.preprocess_ksize = (identity, true) := by
    unfold choose_preprocess
    rw [h]
  exact ⟨hc, by unfold getTipAndEdgeData; rw [hc]⟩

/-- Witness for C6: with an empty registry (so code 999 is unknown) the
attempt runs with identity preprocessing and the warning recorded. -/
theorem unknown_preprocess_code_uses_identity_witness :
    choose_preprocess (fun _ => none) (999 : Int) 5 5 = (identity, true) ∧
    getTipAndEdgeData (fun _ => none) (fun _ _ _ _ _ => [[true]])
        { preprocess_operation := 999, preprocess_ksize := 5,
          preprocess_iterations := 5, canny_upper_threshold := 100,
          canny_lower_threshold := 50, close_ksize := 5,
          close_iterations := 5, scan_direction := 0,
          min_tip_height := 5 } [[0]] =
      (processArray (fun _ _ _ _ _ => [[true]])
          { preprocess := identity, canny_lower := 50, canny_upper := 100,
            close_ksize := 5, close_iterations := 5,
            scan_direction := interpret_direction 0,
            min_tip_height := 5 } [[0]]).map (fun loc => (loc, true)) :=
  unknown_preprocess_code_uses_identity (fun _ => none) _ _ _ rfl

/-- C10.  The per-frame construction of the detector decodes the
`scan_direction` signal by comparing with zero only: the value `0` is
interpreted as FORWARD and every nonzero value as REVERSE. -/
theorem scan_direction_zero_forward_nonzero_reverse :
    interpret_direction 0 = ScanDirections.forward ∧
    ∀ v : Int, v ≠ 0 → interpret_direction v = ScanDirections.reverse := by
  refine ⟨rfl, ?_⟩
  intro v hv
  simp [interpret_direction, hv]

/-- Witness for C10: zero decodes to FORWARD; the nonzero values 7 and
-1 both decode to REVERSE. -/
theorem scan_direction_zero_forward_nonzero_reverse_witness :
    interpret_direction 0 = ScanDirections.forward ∧
    interpret_direction 7 = ScanDirections.reverse ∧
    interpret_direction (-1) = ScanDirections.reverse :=
  ⟨scan_direction_zero_forward_nonzero_reverse.1,
   scan_direction_zero_forward_nonzero_reverse.2 7 (by decide),
   scan_direction_zero_forward_nonzero_reverse.2 (-1) (by decide)⟩

/-- C8.  Each frame-processing attempt runs `_get_tip_and_edge_data`
with the configuration signal values current at that attempt: in a
cycle whose observations each carry the configuration read at their own
processing time, the published outputs are computed from the
configuration paired with the succeeding frame — configurations in
force at earlier or later attempts (for instance values written between
frames) play no role in that attempt. -/
theorem config_signals_read_per_attempt
    (registry : PreprocessRegistry) (ed : EdgeDetector)
    (pre rest : List (PipelineConfig × Frame)) (c : PipelineConfig)
    (f : Frame) (s : OutputState) {loc : SampleLocation} {w : Bool}
    {x y : Int}
    (hpre : ∀ e ∈ pre, has_present_tip (process_event registry ed e) = false)
    (hc : getTipAndEdgeData registry ed c f = Except.ok (loc, w))
    (hx : loc.tip_x = some x) (hy : loc.tip_y = some y) :
    trigger (process_event registry ed) (pre ++ (c, f) :: rest) s =
      { triggered_tip := (x, y)
        triggered_top_edge := loc.edge_top
        triggered_bottom_edge := loc.edge_bottom } := by
  have hp : process_event registry ed (c, f) = Except.ok loc := by
    unfold process_event
    rw [hc]
    rfl
  have h1 := set_triggered_tip_first_success (process_event registry ed)
    (c, f) hp hx hy pre rest s hpre
  unfold trigger
  rw [h1]

/-- Witness for C8: a one-observation cycle whose observation carries
its own configuration publishes the location computed from exactly that
configuration. -/
theorem config_signals_read_per_attempt_witness :
    trigger
        (process_event (fun _ => none)
          (fun _ _ _ _ _ => [[true, true, true, true, true, true]]))
        ([] ++
          ({ preprocess_operation := 999, preprocess_ksize := 5,
             preprocess_iterations := 5, canny_upper_threshold := 100,
             canny_lower_threshold := 50, close_ksize := 5,
             close_iterations := 5, scan_direction := 0,
             min_tip_height := 5 }, [[0]]) :: [])
        { triggered_tip := (9, 9), triggered_top_edge := [],
          triggered_bottom_edge := [] } =
      { triggered_tip := (0, 2)
        triggered_top_edge := [0]
        triggered_bottom_edge := [5] } := by
  have hc : getTipAndEdgeData (fun _ => none)
      (fun _ _ _ _ _ => [[true, true, true, true, true, true]])
      { preprocess_operation := 999, preprocess_ksize := 5,
        preprocess_iterations := 5, canny_upper_threshold := 100,
        canny_lower_threshold := 50, close_ksize := 5,
        close_iterations := 5, scan_direction := 0,
        min_tip_height := 5 } [[0]] =
      Except.ok ({ tip_x := some 0, tip_y := some 2,
                   edge_top := [0], edge_bottom := [5] }, true) := rfl
  exact config_signals_read_per_attempt (fun _ => none)
    (fun _ _ _ _ _ => [[true, true, true, true, true, true]])
    [] [] _ _ _ (by simp) hc rfl rfl

/-! ### Lemmas about the column scan of the sample locator -/

/-- Modelled from the spec: does column index `j` come strictly before
column index `i` in the scan order over `n` columns (FORWARD: smaller
index first; REVERSE: larger index first)? -/
def scan_precedes (dir : ScanDirections) (n j i : Nat) : Bool :=
  match dir with
  | ScanDirections.forward => decide (j < i)
  | ScanDirections.reverse => decide (i < j) && decide (j < n)

/-- The index returned by the column scan points at a qualifying
column. -/
lemma scan_columns_some_qualifies (cols : List (List Bool)) (h : Int) :
    ∀ (l : List Nat) (i : Nat), scan_columns cols h l = some i →
      column_qualifies h (cols.getD i []) = true := by
  intro l
  induction l with
  | nil => intro i hi; exact absurd hi (by simp [scan_columns])
  | cons j rest ih =>
      intro i hi
      simp only [scan_columns] at hi
      split at hi
      · rename_i hq
        injection hi with hji
        subst hji
        exact hq
      · exact ih i hi

/-- A scan that finds no index leaves every examined column
non-qualifying. -/
lemma scan_columns_none_all_fail (cols : List (List Bool)) (h : Int) :
    ∀ (l : List Nat), scan_columns cols h l = none →
      ∀ j ∈ l, column_qualifies h (cols.getD j []) = false := by
  intro l
  induction l with
  | nil => intro _ j hj; exact absurd hj (List.not_mem_nil j)
  | cons k rest ih =>
      intro hn j hj
      simp only [scan_columns] at hn
      split at hn
      · exact absurd hn (by simp)
      · rename_i hq
        rcases List.mem_cons.mp hj with hjk | hjr
        · subst hjk; exact Bool.eq_false_iff.mpr hq
        · exact ih hn j hjr

/-- Scanning the contiguous index block `range' s n` returns the least
qualifying index of the block: every index of the block below it fails. -/
lemma scan_columns_range' (cols : List (List Bool)) (h : Int) :
    ∀ (n s i : Nat), scan_columns cols h (List.range' s n) = some i →
      s ≤ i ∧ i < s + n ∧
      ∀ j : Nat, s ≤ j → j < i →
        column_qualifies h (cols.getD j []) = false := by
  intro n
  induction n with
  | zero => intro s i hi; exact absurd hi (by simp [List.range', scan_columns])
  | succ m ih =>
      intro s i hi
      rw [List.range'_succ] at hi
      simp only [scan_columns] at hi
      split at hi
      · injection hi with hsi
        subst hsi
        exact ⟨Nat.le_refl s, by omega,
          fun j hj1 hj2 => absurd (Nat.lt_of_le_of_lt hj1 hj2)
            (Nat.lt_irrefl s)⟩
      · rename_i hq
        obtain ⟨h1, h2, h3⟩ := ih (s + 1) i hi
        refine ⟨by omega, by omega, ?_⟩
        intro j hj1 hj2
        by_cases hjs : j = s
        · subst hjs; exact Bool.eq_false_iff.mpr hq
        · exact h3 j (by omega) hj2

/-- FORWARD scan: the found column index is the least qualifying one. -/
lemma scan_columns_range_minimal (cols : List (List Bool)) (h : Int)
    (n i : Nat) (hi : scan_columns cols h (List.range n) = some i) :
    i < n ∧ ∀ j : Nat, j < i →
      column_qualifies h (cols.getD j []) = false := by
  rw [List.range_eq_range'] at hi
  obtain ⟨_, h2, h3⟩ := scan_columns_range' cols h n 0 i hi
  exact ⟨by omega, fun j hj => h3 j (Nat.zero_le j) hj⟩

/-- REVERSE scan: every index above the found one (within the scanned
block) fails, so the found index is the greatest qualifying one. -/
lemma scan_columns_range_reverse (cols : List (List Bool)) (h : Int) :
    ∀ (n i : Nat), scan_columns cols h (List.range n).reverse = some i →
      i < n ∧ ∀ j : Nat, i < j → j < n →
        column_qualifies h (cols.getD j []) = false := by
  intro n
  induction n with
  | zero => intro i hi; exact absurd hi (by simp [scan_columns])
  | succ m ih =>
      intro i hi
      rw [List.range_succ, List.reverse_append, List.reverse_cons,
        List.reverse_nil, List.nil_append, List.singleton_append] at hi
      simp only [scan_columns] at hi
      split at hi
      · injection hi with hmi
        subst hmi
        exact ⟨by omega, fun j hj1 hj2 => absurd hj2 (by omega)⟩
      · rename_i hq
        obtain ⟨h1, h2⟩ := ih i hi
        refine ⟨by omega, ?_⟩
        intro j hj1 hj2
        by_cases hjm : j = m
        · subst hjm; exact Bool.eq_false_iff.mpr hq
        · exact h2 j hj1 (by omega)

/-- A scan over the whole column range that finds nothing leaves every
column non-qualifying, in either direction. -/
lemma scan_order_none_all_fail (cols : List (List Bool))
    (dir : ScanDirections) (h : Int)
    (hn : scan_columns cols h (scan_order dir cols.length) = none) :
    ∀ j : Nat, j < cols.length →
      column_qualifies h (cols.getD j []) = false := by
  intro j hj
  have hmem : j ∈ scan_order dir cols.length := by
    cases dir with
    | forward => exact List.mem_range.mpr hj
    | reverse =>
        exact List.mem_reverse.mpr (List.mem_range.mpr hj)
  exact scan_columns_none_all_fail cols h _ hn j hmem

/-- Shape of the locator result when the scan finds column `k`. -/
lemma locate_sample_of_scan_some (cols : List (List Bool))
    (dir : ScanDirections) (h : Int) (k : Nat)
    (hsc : scan_columns cols h (scan_order dir cols.length) = some k) :
    locate_sample cols dir h =
      { tip_x := some (k : Int)
        tip_y := some
          ((((first_on_row (cols.getD k [])).getD 0 : Int) +
            ((last_on_row (cols.getD k [])).getD 0 : Int)) / 2)
        edge_top := edge_trace_top cols
        edge_bottom := edge_trace_bottom cols } := by
  unfold locate_sample
  rw [hsc]

/-- Shape of the locator result when the scan finds no qualifying
column. -/
lemma locate_sample_of_scan_none (cols : List (List Bool))
    (dir : ScanDirections) (h : Int)
    (hsc : scan_columns cols h (scan_order dir cols.length) = none) :
    locate_sample cols dir h =
      { tip_x := none
        tip_y := none
        edge_top := edge_trace_top cols
        edge_bottom := edge_trace_bottom cols } := by
  unfold locate_sample
  rw [hsc]

/-- C3.  The locator examines columns in the order given by the scan
direction (FORWARD = increasing index, REVERSE = decreasing index): the
edge traces always cover all columns; a found tip column qualifies
(vertical extent at least `min_tip_height`) while every column strictly
earlier in the scan order does not; and when no column qualifies the
tip is absent (both coordinates) with the full-length edge traces still
returned. -/
theorem locate_sample_scans_in_direction_order
    (cols : List (List Bool)) (dir : ScanDirections) (h : Int) :
    (locate_sample cols dir h).edge_top.length = cols.length ∧
    (locate_sample cols dir h).edge_bottom.length = cols.length ∧
    (∀ i : Nat, (locate_sample cols dir h).tip_x = some (i : Int) →
      i < cols.length ∧
      column_qualifies h (cols.getD i []) = true ∧
      ∀ j : Nat, scan_precedes dir cols.length j i = true →
        column_qualifies h (cols.getD j []) = false) ∧
    ((locate_sample cols dir h).tip_x = none →
      (locate_sample cols dir h).tip_y = none ∧
      ∀ j : Nat, j < cols.length →
        column_qualifies h (cols.getD j []) = false) := by
  cases hsc : scan_columns cols h (scan_order dir cols.length) with
  | none =>
      rw [locate_sample_of_scan_none cols dir h hsc]
      refine ⟨by simp [edge_trace_top], by simp [edge_trace_bottom], ?_, ?_⟩
      · intro i hi; exact absurd hi (by simp)
      · intro _
        exact ⟨rfl, scan_order_none_all_fail cols dir h hsc⟩
  | some k =>
      rw [locate_sample_of_scan_some cols dir h k hsc]
      refine ⟨by simp [edge_trace_top], by simp [edge_trace_bottom], ?_, ?_⟩
      · intro i hi
        simp only [Option.some.injEq, Nat.cast_inj] at hi
        subst hi
        have hq := scan_columns_some_qualifies cols h _ k hsc
        cases dir with
        | forward =>
            obtain ⟨hlt, hmin⟩ :=
              scan_columns_range_minimal cols h cols.length k hsc
            exact ⟨hlt, hq,
              fun j hj => hmin j (of_decide_eq_true hj)⟩
        | reverse =>
            obtain ⟨hlt, hmax⟩ :=
              scan_columns_range_reverse cols h cols.length k hsc
            refine ⟨hlt, hq, ?_⟩
            intro j hj
            simp only [scan_precedes, Bool.and_eq_true,
              decide_eq_true_eq] at hj
            exact hmax j hj.1 hj.2
      · intro hi; exact absurd hi (by simp)

/-- Witness for C3: on a three-column silhouette whose columns 1 and 2
both qualify with threshold 1, the FORWARD scan reports column 1 and
column 0 indeed fails; the edge traces cover all three columns. -/
theorem locate_sample_scans_in_direction_order_witness :
    (locate_sample [[false, false], [true, true], [true, true]]
        ScanDirections.forward 1).edge_top.length = 3 ∧
    column_qualifies 1
      ([[false, false], [true, true], [true, true]].getD 1 []) = true ∧
    column_qualifies 1
      ([[false, false], [true, true], [true, true]].getD 0 []) = false := by
  have H := locate_sample_scans_in_direction_order
    [[false, false], [true, true], [true, true]] ScanDirections.forward 1
  have h2 := H.2.2.1 1 rfl
  exact ⟨H.1, h2.2.1, h2.2.2 0 (by decide)⟩
